import Mathlib

/-!
# Usage dashboard (`web/air/src/pages/Detail/index.js`)

A shallow embedding of the `Detail` page component: the request URL built by
`loadQuotaData`, the bucketing of `created_at`, the aggregation loop of
`updateChart`, the preset handler `handlePresetDateRange`, and the mount
effect with `initChart` together with the events of the page.

Modelling conventions.
* JavaScript numbers are modelled exactly: `count` and `quota` are `Int`,
  `created_at` and `Usage` are `ℚ`.  The model agrees with IEEE doubles as long
  as every intermediate value is exactly representable.
* Functions imported from `../../helpers` and `../../helpers/render` are not
  part of this file of the repository; they are the fields of `Helpers`, and
  every theorem quantifies over them.
* React state is passed explicitly.  A handler sees the state snapshot of the
  render that created it.
-/

namespace Detail

/-! ## Data model -/

/-- One row of `res.data.data`: `{model_name, count, quota, created_at}`. -/
structure UsageRecord where
  model_name : String
  count : Int
  quota : Int
  created_at : ℚ
  deriving DecidableEq

/-- One pie datum `{type, value}` (lines 319-322). -/
structure PieItem where
  type : String
  value : Int
  deriving DecidableEq

/-- One bar datum `{Time, Model, Usage}` (lines 331-335). -/
structure LineItem where
  Time : String
  Model : String
  Usage : ℚ
  deriving DecidableEq

/-- The imported helpers the page calls.  `dateParse` is `Date.parse`
(milliseconds, `none` for `NaN`); `startOfDay`/`endOfDay` are
`setHours(0,0,0,0)` and `setHours(23,59,59,999)` on a copy of the given
instant; `daysBefore now k` is `new Date()` followed by
`setDate(now.getDate() - k)`.  All instants are in milliseconds. -/
structure Helpers where
  timestamp2string : ℚ → String
  timestamp2string1 : ℚ → String → String
  getQuotaWithUnit : Int → String
  parseFloat : String → ℚ
  renderNumber : Int → String
  renderQuota : Int → Nat → String
  dateParse : String → Option Int
  startOfDay : Int → Int
  endOfDay : Int → Int
  daysBefore : Int → Nat → Int

/-- The conversion `parseFloat(getQuotaWithUnit(quota))` of lines 329 and 334. -/
def Helpers.usageOf (h : Helpers) (quota : Int) : ℚ :=
  h.parseFloat (h.getQuotaWithUnit quota)

/-! ## `updateChart`: the aggregation loop (lines 306-337) -/

/-- The in-place mutation of the element `Array.prototype.find` returned: the
first element satisfying `p` is replaced by `f` of it, at the same index. -/
def updateFound {α : Type} (p : α → Bool) (f : α → α) : List α → List α
  | [] => []
  | x :: xs => if p x then f x :: xs else x :: updateFound p f xs

/-- Lines 315-323: merge one record into `pieData`. -/
def pieStep (pieData : List PieItem) (item : UsageRecord) : List PieItem :=
  match pieData.find? (fun it => it.type == item.model_name) with
  | some _ =>
      updateFound (fun it => it.type == item.model_name)
        (fun it => { it with value := it.value + item.count }) pieData
  | none => pieData ++ [{ type := item.model_name, value := item.count }]

/-- Lines 326-336: merge one record into `lineData`. -/
def lineStep (h : Helpers) (dataExportDefaultTime : String)
    (lineData : List LineItem) (item : UsageRecord) : List LineItem :=
  let createTime := h.timestamp2string1 item.created_at dataExportDefaultTime
  match lineData.find? (fun it => it.Time == createTime && it.Model == item.model_name) with
  | some _ =>
      updateFound (fun it => it.Time == createTime && it.Model == item.model_name)
        (fun it => { it with Usage := it.Usage + h.usageOf item.quota }) lineData
  | none =>
      lineData ++
        [{ Time := createTime, Model := item.model_name, Usage := h.usageOf item.quota }]

/-- The four locals of `updateChart` (lines 306-309). -/
structure Acc where
  pieData : List PieItem
  lineData : List LineItem
  consumeQuota : Int
  times : Int
  deriving DecidableEq

/-- One iteration of the `for` loop (lines 311-336). -/
def loopBody (h : Helpers) (dataExportDefaultTime : String) (acc : Acc)
    (item : UsageRecord) : Acc :=
  { consumeQuota := acc.consumeQuota + item.quota
    times := acc.times + item.count
    pieData := pieStep acc.pieData item
    lineData := lineStep h dataExportDefaultTime acc.lineData item }

/-- The whole loop, from the empty accumulators. -/
def aggregate (h : Helpers) (dataExportDefaultTime : String)
    (data : List UsageRecord) : Acc :=
  data.foldl (loopBody h dataExportDefaultTime)
    { pieData := [], lineData := [], consumeQuota := 0, times := 0 }

/-- The comparator of line 342, `(a, b) => b.value - a.value`. -/
def byCountDesc (a b : PieItem) : Int := b.value - a.value

/-- The order `Array.prototype.sort` establishes for a comparator: `a` may
stand before `b` when the comparator is not positive. -/
def sortsBefore (cmp : PieItem → PieItem → Int) (a b : PieItem) : Prop := cmp a b ≤ 0

instance (cmp : PieItem → PieItem → Int) : DecidableRel (sortsBefore cmp) :=
  fun a b => inferInstanceAs (Decidable (cmp a b ≤ 0))

instance : IsTotal PieItem (sortsBefore byCountDesc) :=
  ⟨fun a b => by
    simp only [sortsBefore, byCountDesc]
    omega⟩

instance : IsTrans PieItem (sortsBefore byCountDesc) :=
  ⟨fun a b c hab hbc => by
    simp only [sortsBefore, byCountDesc] at *
    omega⟩

/-- `Array.prototype.sort(cmp)`: a stable sort (ECMAScript 2019), here the
stable insertion sort. -/
def jsSort (cmp : PieItem → PieItem → Int) (l : List PieItem) : List PieItem :=
  l.insertionSort (sortsBefore cmp)

/-- The array assigned to `spec_pie.data[0].values` (lines 342-344). -/
def pieSeries (h : Helpers) (dataExportDefaultTime : String)
    (data : List UsageRecord) : List PieItem :=
  jsSort byCountDesc (aggregate h dataExportDefaultTime data).pieData

/-- The array assigned to `spec_line.data[0].values` (line 347). -/
def lineSeries (h : Helpers) (dataExportDefaultTime : String)
    (data : List UsageRecord) : List LineItem :=
  (aggregate h dataExportDefaultTime data).lineData

/-! ## Page state

`PageState` holds the React state cells and the `initialized` ref of the
component; the user directory (`users`, `userOptions`) is left out.  `World` is
what the handlers act on: the live state, the heap of `VChart` objects
constructed so far (a handle is an index into it), the log of `API.get` calls
and the log of `showError` calls.  `Render` is what the closures of one render
capture: `now` (line 15), `isAdminUser` (line 26) and that render's snapshot
of the state. -/

/-- The `inputs` state cell (lines 16-24). -/
structure Inputs where
  username : String
  token_name : String
  model_name : String
  start_timestamp : String
  end_timestamp : String
  channel : String
  data_export_default_time : String
  deriving DecidableEq

/-- The two fields of a chart spec the page ever changes: `title.subtext` and
`data[0].values`; `spec_pie.title` has no `subtext` until line 343 sets it. -/
inductive ChartSpec where
  | bar (subtext : String) (values : List LineItem)
  | pie (subtext : Option String) (values : List PieItem)
  deriving DecidableEq

/-- A `VChart` object: its current spec, its mount point and the number of
`reLayout` calls it received. -/
structure VChart where
  spec : ChartSpec
  dom : String
  layouts : Nat
  deriving DecidableEq

structure PageState where
  inputs : Inputs
  initialized : Bool
  modelDataChart : Option Nat
  modelDataPieChart : Option Nat
  loading : Bool
  quotaData : List UsageRecord
  consumeQuota : Int
  times : Int
  dataExportDefaultTime : String
  deriving DecidableEq

structure World where
  state : PageState
  charts : List VChart
  requests : List String
  errors : List String
  deriving DecidableEq

structure Render where
  now : Int
  isAdminUser : Bool
  state : PageState
  deriving DecidableEq

/-- The body of `res.data` (line 207). -/
structure Response where
  success : Bool
  message : String
  data : List UsageRecord
  deriving DecidableEq

/-! ## `loadQuotaData` (lines 195-233) -/

/-- The digits after the decimal point of a number of milliseconds divided by
1000: at most three, trailing zeros dropped, nothing for a whole number. -/
def fractionChars (r : Nat) : List Char :=
  if r % 1000 = 0 then []
  else if r % 100 = 0 then ['.', Nat.digitChar (r / 100 % 10)]
  else if r % 10 = 0 then ['.', Nat.digitChar (r / 100 % 10), Nat.digitChar (r / 10 % 10)]
  else ['.', Nat.digitChar (r / 100 % 10), Nat.digitChar (r / 10 % 10), Nat.digitChar (r % 10)]

/-- The text a template literal gives `Date.parse(s) / 1000`: `NaN` when the
date does not parse, else the decimal numeral of the seconds. -/
def secondsToString : Option Int → String
  | none => "NaN"
  | some ms =>
      (if ms < 0 then "-" else "") ++ toString (ms.natAbs / 1000) ++
        String.mk (fractionChars (ms.natAbs % 1000))

/-- Lines 198-205: the request URL, built from the render's snapshot. -/
def loadQuotaDataUrl (h : Helpers) (r : Render) : String :=
  let localStartTimestamp := secondsToString (h.dateParse r.state.inputs.start_timestamp)
  let localEndTimestamp := secondsToString (h.dateParse r.state.inputs.end_timestamp)
  if r.isAdminUser then
    "/api/data/?username=" ++ r.state.inputs.username ++ "&start_timestamp=" ++
      localStartTimestamp ++ "&end_timestamp=" ++ localEndTimestamp ++ "&default_time=" ++
      r.state.dataExportDefaultTime
  else
    "/api/data/self/?start_timestamp=" ++ localStartTimestamp ++ "&end_timestamp=" ++
      localEndTimestamp ++ "&default_time=" ++ r.state.dataExportDefaultTime

/-- Lines 219-224. -/
def timeGranularity (dataExportDefaultTime : String) : Int :=
  if dataExportDefaultTime = "day" then 86400
  else if dataExportDefaultTime = "week" then 604800
  else 3600

/-- Line 226: `Math.floor(item['created_at'] / timeGranularity) * timeGranularity`. -/
def floorCreatedAt (timeGranularity : Int) (item : UsageRecord) : UsageRecord :=
  { item with created_at := ((⌊item.created_at / timeGranularity⌋ * timeGranularity : Int) : ℚ) }

/-- The record pushed at lines 211-216. -/
def noDataRecord (now : Int) : UsageRecord :=
  { count := 0, model_name := "无数据", quota := 0, created_at := (now : ℚ) / 1000 }

/-- Lines 210-227: the array handed to `updateChart`. -/
def preparedData (now : Int) (dataExportDefaultTime : String)
    (data : List UsageRecord) : List UsageRecord :=
  let data := if data.length = 0 then data ++ [noDataRecord now] else data
  data.map (floorCreatedAt (timeGranularity dataExportDefaultTime))

/-- The methods `updateSpec(spec)` and `reLayout()` applied to the object a
handle refers to. -/
def updateSpecAndLayout (charts : List VChart) (handle : Nat) (spec : ChartSpec) :
    List VChart :=
  charts.modify (fun c => { c with spec := spec, layouts := c.layouts + 1 }) handle

/-- Lines 302-355.  A `null` handle makes `pieChart.updateSpec` (or
`lineChart.updateSpec`) throw, which the model reports as an error. -/
def updateChart (h : Helpers) (r : Render) (lineChart pieChart : Option Nat)
    (data : List UsageRecord) (w : World) : Except String World :=
  let acc := aggregate h r.state.dataExportDefaultTime data
  let w := { w with state := { w.state with consumeQuota := acc.consumeQuota, times := acc.times } }
  let pieData := jsSort byCountDesc acc.pieData
  let spec_pie := ChartSpec.pie (some ("总计：" ++ h.renderNumber acc.times)) pieData
  let spec_line := ChartSpec.bar ("总计：" ++ h.renderQuota acc.consumeQuota 2) acc.lineData
  match pieChart, lineChart with
  | some pc, some lc =>
      .ok { w with charts := updateSpecAndLayout (updateSpecAndLayout w.charts pc spec_pie) lc spec_line }
  | _, _ => .error "TypeError: Cannot read properties of null"

/-- Lines 196-206: everything `loadQuotaData` does before the response
arrives.  The URL comes from the render's snapshot. -/
def loadQuotaDataStart (h : Helpers) (r : Render) (w : World) : World :=
  { w with
    state := { w.state with loading := true }
    requests := w.requests ++ [loadQuotaDataUrl h r] }

/-- Lines 207-232: what `loadQuotaData` does with the response.  `quotaData`
holds the very array that lines 211 and 226 then mutate. -/
def loadQuotaDataResponse (h : Helpers) (r : Render) (lineChart pieChart : Option Nat)
    (res : Response) (w : World) : Except String World :=
  if res.success then
    let data := preparedData r.now r.state.dataExportDefaultTime res.data
    let w := { w with state := { w.state with quotaData := data } }
    match updateChart h r lineChart pieChart data w with
    | .ok w => .ok { w with state := { w.state with loading := false } }
    | .error e => .error e
  else
    let w := { w with errors := w.errors ++ [res.message] }
    .ok { w with state := { w.state with loading := false } }

/-- The whole of `loadQuotaData`, the backend being the function `api` from
the URL to the response body. -/
def loadQuotaData (h : Helpers) (r : Render) (lineChart pieChart : Option Nat)
    (api : String → Response) (w : World) : Except String World :=
  loadQuotaDataResponse h r lineChart pieChart (api (loadQuotaDataUrl h r))
    (loadQuotaDataStart h r w)

/-- Lines 235-237. -/
def refresh (h : Helpers) (r : Render) (api : String → Response) (w : World) :
    Except String World :=
  loadQuotaData h r r.state.modelDataChart r.state.modelDataPieChart api w

/-! ## `handlePresetDateRange` (lines 239-283) -/

/-- Lines 243-260: the start instant of a preset, `none` for the `default`
branch. -/
def presetStartDate (h : Helpers) (now : Int) (preset : String) : Option Int :=
  if preset = "today" then some (h.startOfDay now)
  else if preset = "7days" then some (h.startOfDay (h.daysBefore now 6))
  else if preset = "30days" then some (h.startOfDay (h.daysBefore now 29))
  else none

/-- Lines 239-283, up to the point where `loadQuotaData` waits for the
response.  `now` is the `new Date()` of line 240.  `setInputs` changes the
live state; `loadQuotaData` is the closure of the render `r`.  The form
widget values set at lines 276-279 are not modelled. -/
def handlePresetDateRange (h : Helpers) (r : Render) (now : Int) (preset : String)
    (w : World) : World :=
  match presetStartDate h now preset with
  | none => w
  | some startDate =>
      let endDate := h.endOfDay now
      let startTimestamp := h.timestamp2string ((startDate : ℚ) / 1000)
      let endTimestamp := h.timestamp2string ((endDate : ℚ) / 1000)
      let w := { w with
        state := { w.state with
          inputs := { w.state.inputs with
            start_timestamp := startTimestamp, end_timestamp := endTimestamp } } }
      loadQuotaDataStart h r w

/-! ## Reference definitions used by the statements -/

/-- The keys of a list in the order of their first occurrence. -/
def firstSeen {α : Type} [DecidableEq α] : List α → List α
  | [] => []
  | x :: xs => x :: (firstSeen xs).filter (fun y => decide (y ≠ x))

/-- The group key of a bar entry. -/
def LineItem.key (it : LineItem) : String × String := (it.Time, it.Model)

/-- The bar group key of a record. -/
def lineKey (h : Helpers) (dataExportDefaultTime : String) (item : UsageRecord) :
    String × String :=
  (h.timestamp2string1 item.created_at dataExportDefaultTime, item.model_name)

/-- Split a character list at every occurrence of `sep`. -/
def splitAt (sep : Char) : List Char → List (List Char)
  | [] => [[]]
  | c :: cs =>
      if c = sep then [] :: splitAt sep cs
      else
        match splitAt sep cs with
        | [] => [[c]]
        | p :: ps => (c :: p) :: ps

/-- The names of the query parameters of a URL: the part after the first `?`,
cut at every `&`, each piece up to its first `=`. -/
def queryParamNames (url : String) : List String :=
  ((splitAt '&' (url.data.dropWhile (fun c => decide (c ≠ '?'))).tail).map
    (fun piece => String.mk (piece.takeWhile (fun c => decide (c ≠ '=')))))

/-- The path of a URL: the part before the first `?`. -/
def urlPath (url : String) : String :=
  String.mk (url.data.takeWhile (fun c => decide (c ≠ '?')))

/-- The characters that separate the parts of a query string. -/
def isUrlDelimiter (c : Char) : Prop := c = '&' ∨ c = '=' ∨ c = '?'

instance : DecidablePred isUrlDelimiter := fun c =>
  inferInstanceAs (Decidable (c = '&' ∨ c = '=' ∨ c = '?'))

/-- Modelled from the spec: the quantity conversion of lines 329 and 334,
`getQuotaWithUnit` of `helpers/render` followed by `parseFloat`; the helper
is not among the sources.  The spec describes it as raw quota "converted to a
human-scaled unit by an external quantity-conversion function", that is a
change of unit: the quota divided by the number of quota in one unit. -/
def unitConversion (quotaPerUnit : ℚ) (quota : Int) : ℚ := (quota : ℚ) / quotaPerUnit

/-- The decimal numeral of an integer, `-` first when it is negative. -/
def intNumeral (q : Int) : String :=
  String.mk ((if q < 0 then ['-'] else []) ++
    (if q = 0 then ['0']
     else (Nat.digits 10 q.natAbs).reverse.map (fun d => Char.ofNat (48 + d))))

/-- The number that the decimal numeral of an integer stands for. -/
def numeralValue (s : String) : ℚ :=
  if '-' ∈ s.data then
    -((Nat.ofDigits 10 (s.data.reverse.map (fun c => c.toNat - 48)) : Nat) : ℚ)
  else ((Nat.ofDigits 10 (s.data.reverse.map (fun c => c.toNat - 48)) : Nat) : ℚ)

/-- A concrete set of helpers, used only to instantiate statements on
examples; the helpers of the program are not among the sources and every
general theorem holds for all helper sets.  Here days are UTC days, instants
are printed as whole seconds and dates are written as a decimal number of
seconds, and the quantity conversion is `unitConversion` with one quota per
unit: `getQuotaWithUnit` writes the numeral of the quota and `parseFloat`
reads it back. -/
def demoHelpers : Helpers where
  timestamp2string := fun s => toString ⌊s⌋
  timestamp2string1 := fun s g => toString ⌊s⌋ ++ "/" ++ g
  getQuotaWithUnit := intNumeral
  parseFloat := numeralValue
  renderNumber := fun n => toString n
  renderQuota := fun q _ => toString q
  dateParse := fun s =>
    if s.data.all Char.isDigit then
      some ((s.data.foldl (fun n c => 10 * n + (c.toNat - 48)) 0 : Nat) * 1000)
    else none
  startOfDay := fun ms => ms - ms % 86400000
  endOfDay := fun ms => ms - ms % 86400000 + 86399999
  daysBefore := fun ms k => ms - k * 86400000

/-- A page state for the examples: a non-administrator's page after the first
load, the bar chart at handle 0 and the pie chart at handle 1. -/
def demoState : PageState where
  inputs :=
    { username := "", token_name := "", model_name := "", start_timestamp := "1000",
      end_timestamp := "2000", channel := "", data_export_default_time := "" }
  initialized := true
  modelDataChart := some 0
  modelDataPieChart := some 1
  loading := false
  quotaData := []
  consumeQuota := 1500
  times := 3
  dataExportDefaultTime := "hour"

/-- The world of the examples. -/
def demoWorld : World where
  state := demoState
  charts :=
    [{ spec := .bar "1500" [{ Time := "90000/hour", Model := "gpt-4", Usage := 1 }],
       dom := "model_data", layouts := 1 },
     { spec := .pie (some "3") [{ type := "gpt-4", value := 3 }],
       dom := "model_pie", layouts := 1 }]
  requests := []
  errors := []

/-- The render of the examples. -/
def demoRender : Render where
  now := 1700000000000
  isAdminUser := false
  state := demoState

/-! ## Mount, `initChart` and the page events (lines 13-36, 285-300, 357-374) -/

/-- The state of the first render (lines 16-36).  `now` is the `new Date()` of
line 15 and `stored` is `localStorage.getItem('data_export_default_time')`. -/
def initialState (h : Helpers) (now : Int) (stored : Option String) : PageState where
  inputs :=
    { username := ""
      token_name := ""
      model_name := ""
      start_timestamp :=
        if stored = some "hour" then h.timestamp2string ((now : ℚ) / 1000 - 86400)
        else if stored = some "week" then h.timestamp2string ((now : ℚ) / 1000 - 86400 * 30)
        else h.timestamp2string ((now : ℚ) / 1000 - 86400 * 7)
      end_timestamp := h.timestamp2string ((now : ℚ) / 1000 + 3600)
      channel := ""
      data_export_default_time := "" }
  initialized := false
  modelDataChart := none
  modelDataPieChart := none
  loading := false
  quotaData := []
  consumeQuota := 0
  times := 0
  dataExportDefaultTime :=
    match stored with
    | some v => if v = "" then "hour" else v
    | none => "hour"

/-- The world before the mount effect has run: no chart object, no request. -/
def initialWorld (h : Helpers) (now : Int) (stored : Option String) : World where
  state := initialState h now stored
  charts := []
  requests := []
  errors := []

/-- The first render, whose closure the mount effect runs. -/
def mountRender (h : Helpers) (now : Int) (isAdminUser : Bool) (stored : Option String) :
    Render where
  now := now
  isAdminUser := isAdminUser
  state := initialState h now stored

/-- The object `spec_line` as the component body writes it (lines 69-135). -/
def spec_line : ChartSpec := .bar "0" []

/-- The object `spec_pie` as the component body writes it (lines 137-193).  Its
one datum is `{type: 'null', value: '0'}`; the string `'0'` is modelled as the
number 0. -/
def spec_pie : ChartSpec := .pie none [{ type := "null", value := 0 }]

/-- Lines 285-300, up to the point where `loadQuotaData` waits for the
response: the world, and the two handles given to `loadQuotaData`.  `new
VChart` puts a new object at the end of the heap. -/
def initChart (h : Helpers) (r : Render) (w : World) : World × Nat × Nat :=
  let lineChart := r.state.modelDataChart.getD w.charts.length
  let w :=
    match r.state.modelDataChart with
    | some _ => w
    | none =>
        { w with
          charts := w.charts ++ [{ spec := spec_line, dom := "model_data", layouts := 0 }]
          state := { w.state with modelDataChart := some w.charts.length } }
  let pieChart := r.state.modelDataPieChart.getD w.charts.length
  let w :=
    match r.state.modelDataPieChart with
    | some _ => w
    | none =>
        { w with
          charts := w.charts ++ [{ spec := spec_pie, dom := "model_pie", layouts := 0 }]
          state := { w.state with modelDataPieChart := some w.charts.length } }
  (loadQuotaDataStart h r w, lineChart, pieChart)

/-- Lines 357-374 without the user directory: the effect body, run in the
closure of the render `r`.  `initialized` is a ref, read from the live state. -/
def mountEffect (h : Helpers) (r : Render) (w : World) : World :=
  if w.state.initialized then w
  else (initChart h r { w with state := { w.state with initialized := true } }).1

/-- Lines 38-44. -/
def handleInputChange (value name : String) (w : World) : World :=
  if name = "data_export_default_time" then
    { w with state := { w.state with dataExportDefaultTime := value } }
  else
    { w with state := { w.state with inputs :=
        if name = "username" then { w.state.inputs with username := value }
        else if name = "token_name" then { w.state.inputs with token_name := value }
        else if name = "model_name" then { w.state.inputs with model_name := value }
        else if name = "start_timestamp" then { w.state.inputs with start_timestamp := value }
        else if name = "end_timestamp" then { w.state.inputs with end_timestamp := value }
        else if name = "channel" then { w.state.inputs with channel := value }
        else w.state.inputs } }

/-- The world a `loadQuotaData` leaves behind when `updateChart` throws on a
`null` handle: lines 209 and 338-339 have run, `pieChart.updateSpec` (line 348)
has run when only `lineChart` is `null`, and line 232 is never reached. -/
def loadQuotaDataThrown (h : Helpers) (r : Render) (pieChart : Option Nat)
    (res : Response) (w : World) : World :=
  let data := preparedData r.now r.state.dataExportDefaultTime res.data
  let acc := aggregate h r.state.dataExportDefaultTime data
  let w := { w with state := { w.state with
    quotaData := data, consumeQuota := acc.consumeQuota, times := acc.times } }
  let spec_pie := ChartSpec.pie (some ("总计：" ++ h.renderNumber acc.times))
    (jsSort byCountDesc acc.pieData)
  match pieChart with
  | some pc => { w with charts := w.charts.modify (fun c => { c with spec := spec_pie }) pc }
  | none => w

/-- The arrival of a response at a waiting `loadQuotaData`. -/
def loadQuotaDataResume (h : Helpers) (r : Render) (lineChart pieChart : Option Nat)
    (res : Response) (w : World) : World :=
  match loadQuotaDataResponse h r lineChart pieChart res w with
  | .ok w => w
  | .error _ => loadQuotaDataThrown h r pieChart res w

/-- The events of the page.  `effect` is a run of the mount effect; its
dependency list is `[]`, so it runs in the closure of the first render.
`rerender` is an evaluation of the component body.  The other events name the
render whose closure handles them, and `response` the handles the waiting
`loadQuotaData` holds. -/
inductive Event where
  | effect
  | rerender
  | inputChange (value name : String)
  | refresh (r : Render)
  | preset (r : Render) (now : Int) (preset : String)
  | response (r : Render) (lineChart pieChart : Option Nat) (res : Response)

/-- The effect of one event on the world.  A re-render builds new closures and
new spec objects and touches nothing else. -/
def step (h : Helpers) (mount : Render) (w : World) : Event → World
  | .effect => mountEffect h mount w
  | .rerender => w
  | .inputChange value name => handleInputChange value name w
  | .refresh r => loadQuotaDataStart h r w
  | .preset r now preset => handlePresetDateRange h r now preset w
  | .response r lineChart pieChart res => loadQuotaDataResume h r lineChart pieChart res w

/-- The world after a sequence of events. -/
def run (h : Helpers) (mount : Render) (w : World) (events : List Event) : World :=
  events.foldl (step h mount) w

/-- The world `w'` has the chart objects of `w`, at the same mount points and
in the same number, and the same `initialized` flag and handles in its
state. -/
def keepsHandles (w w' : World) : Prop :=
  w'.charts.map VChart.dom = w.charts.map VChart.dom ∧
  w'.state.initialized = w.state.initialized ∧
  w'.state.modelDataChart = w.state.modelDataChart ∧
  w'.state.modelDataPieChart = w.state.modelDataPieChart

/-! ## Lemmas on the aggregation loop -/

theorem pieStep_nil (item : UsageRecord) :
    pieStep [] item = [{ type := item.model_name, value := item.count }] := rfl

theorem pieStep_cons (x : PieItem) (xs : List PieItem) (item : UsageRecord) :
    pieStep (x :: xs) item =
      if x.type = item.model_name then { x with value := x.value + item.count } :: xs
      else x :: pieStep xs item := by
  by_cases hx : x.type = item.model_name
  · simp [pieStep, updateFound, List.find?_cons, hx]
  · have hb : (x.type == item.model_name) = false := by simpa using hx
    simp only [pieStep, updateFound, List.find?_cons, hb, hx, if_false]
    cases List.find? (fun it => it.type == item.model_name) xs <;> simp

theorem lineStep_nil (h : Helpers) (g : String) (item : UsageRecord) :
    lineStep h g [] item =
      [{ Time := h.timestamp2string1 item.created_at g, Model := item.model_name,
         Usage := h.usageOf item.quota }] := rfl

theorem lineStep_cons (h : Helpers) (g : String) (x : LineItem) (xs : List LineItem)
    (item : UsageRecord) :
    lineStep h g (x :: xs) item =
      if x.key = lineKey h g item then { x with Usage := x.Usage + h.usageOf item.quota } :: xs
      else x :: lineStep h g xs item := by
  by_cases hx : x.Time = h.timestamp2string1 item.created_at g ∧ x.Model = item.model_name
  · have hk : x.key = lineKey h g item := by
      simp [LineItem.key, lineKey, hx.1, hx.2]
    simp [lineStep, updateFound, List.find?_cons, hx.1, hx.2, hk]
  · have hk : ¬ x.key = lineKey h g item := by
      simpa [LineItem.key, lineKey, Prod.ext_iff] using hx
    have hb : (x.Time == h.timestamp2string1 item.created_at g && x.Model == item.model_name)
        = false := by
      simpa [Bool.and_eq_true] using hx
    simp only [lineStep, updateFound, List.find?_cons, hb, hk, if_false]
    cases List.find? (fun it => it.Time == h.timestamp2string1 item.created_at g
      && it.Model == item.model_name) xs <;> simp

theorem aggregate_nil (h : Helpers) (g : String) :
    aggregate h g [] = { pieData := [], lineData := [], consumeQuota := 0, times := 0 } := rfl

theorem aggregate_snoc (h : Helpers) (g : String) (data : List UsageRecord)
    (item : UsageRecord) :
    aggregate h g (data ++ [item]) = loopBody h g (aggregate h g data) item := by
  simp [aggregate, List.foldl_append]

theorem sum_value_pieStep (l : List PieItem) (item : UsageRecord) :
    ((pieStep l item).map PieItem.value).sum = (l.map PieItem.value).sum + item.count := by
  induction l with
  | nil => simp [pieStep_nil]
  | cons x xs ih =>
    rw [pieStep_cons]
    split
    · simp; ring
    · simp [ih]; ring

theorem sum_usage_lineStep (h : Helpers) (g : String) (l : List LineItem)
    (item : UsageRecord) :
    ((lineStep h g l item).map LineItem.Usage).sum =
      (l.map LineItem.Usage).sum + h.usageOf item.quota := by
  induction l with
  | nil => simp [lineStep_nil]
  | cons x xs ih =>
    rw [lineStep_cons]
    split
    · simp; ring
    · simp [ih]; ring

theorem sum_value_aggregate (h : Helpers) (g : String) (data : List UsageRecord) :
    ((aggregate h g data).pieData.map PieItem.value).sum =
      (data.map UsageRecord.count).sum := by
  induction data using List.reverseRecOn with
  | nil => simp [aggregate_nil]
  | append_singleton data item ih =>
    simp [aggregate_snoc, loopBody, sum_value_pieStep, ih]

theorem sum_usage_aggregate (h : Helpers) (g : String) (data : List UsageRecord) :
    ((aggregate h g data).lineData.map LineItem.Usage).sum =
      (data.map (fun item => h.usageOf item.quota)).sum := by
  induction data using List.reverseRecOn with
  | nil => simp [aggregate_nil]
  | append_singleton data item ih =>
    simp [aggregate_snoc, loopBody, sum_usage_lineStep, ih]

theorem jsSort_perm (cmp : PieItem → PieItem → Int) (l : List PieItem) :
    (jsSort cmp l).Perm l :=
  List.perm_insertionSort _ l

theorem map_type_pieStep (l : List PieItem) (item : UsageRecord) :
    (pieStep l item).map PieItem.type =
      if item.model_name ∈ l.map PieItem.type then l.map PieItem.type
      else l.map PieItem.type ++ [item.model_name] := by
  induction l with
  | nil => simp [pieStep_nil]
  | cons x xs ih =>
    rw [pieStep_cons]
    by_cases hx : x.type = item.model_name
    · simp [hx]
    · have hx' : ¬ item.model_name = x.type := fun e => hx e.symm
      simp only [hx, if_false, List.map_cons, ih, List.mem_cons, hx', false_or]
      split <;> simp

theorem map_key_lineStep (h : Helpers) (g : String) (l : List LineItem)
    (item : UsageRecord) :
    (lineStep h g l item).map LineItem.key =
      if lineKey h g item ∈ l.map LineItem.key then l.map LineItem.key
      else l.map LineItem.key ++ [lineKey h g item] := by
  induction l with
  | nil => simp [lineStep_nil, LineItem.key, lineKey]
  | cons x xs ih =>
    rw [lineStep_cons]
    by_cases hx : x.key = lineKey h g item
    · have hk : LineItem.key { x with Usage := x.Usage + h.usageOf item.quota } = x.key := rfl
      rw [if_pos hx]
      simp [hk, hx]
    · have hx' : ¬ lineKey h g item = x.key := fun e => hx e.symm
      simp only [hx, if_false, List.map_cons, ih, List.mem_cons, hx', false_or]
      split <;> simp

theorem mem_firstSeen {α : Type} [DecidableEq α] (l : List α) (a : α) :
    a ∈ firstSeen l ↔ a ∈ l := by
  induction l with
  | nil => simp [firstSeen]
  | cons x xs ih =>
    by_cases hax : a = x
    · simp [firstSeen, hax]
    · simp [firstSeen, hax, List.mem_filter, ih]

theorem nodup_firstSeen {α : Type} [DecidableEq α] (l : List α) : (firstSeen l).Nodup := by
  induction l with
  | nil => simp [firstSeen]
  | cons x xs ih =>
    simp only [firstSeen, List.nodup_cons, List.mem_filter]
    exact ⟨by simp, ih.filter _⟩

theorem firstSeen_snoc {α : Type} [DecidableEq α] (l : List α) (a : α) :
    firstSeen (l ++ [a]) = if a ∈ firstSeen l then firstSeen l else firstSeen l ++ [a] := by
  induction l with
  | nil => simp [firstSeen]
  | cons x xs ih =>
    have e : firstSeen (x :: xs ++ [a]) =
        x :: (firstSeen (xs ++ [a])).filter (fun y => decide (y ≠ x)) := rfl
    rw [e, ih]
    by_cases hax : a = x
    · subst hax
      by_cases hm : a ∈ firstSeen xs <;> simp [firstSeen, hm, List.filter_append]
    · by_cases hm : a ∈ firstSeen xs <;>
        simp [firstSeen, hm, hax, List.filter_append, List.mem_filter]

theorem pie_types_aggregate (h : Helpers) (g : String) (data : List UsageRecord) :
    (aggregate h g data).pieData.map PieItem.type =
      firstSeen (data.map UsageRecord.model_name) := by
  induction data using List.reverseRecOn with
  | nil => simp [aggregate_nil, firstSeen]
  | append_singleton data item ih =>
    simp [aggregate_snoc, loopBody, map_type_pieStep, ih, firstSeen_snoc]

theorem line_keys_aggregate (h : Helpers) (g : String) (data : List UsageRecord) :
    (aggregate h g data).lineData.map LineItem.key = firstSeen (data.map (lineKey h g)) := by
  induction data using List.reverseRecOn with
  | nil => simp [aggregate_nil, firstSeen]
  | append_singleton data item ih =>
    simp [aggregate_snoc, loopBody, map_key_lineStep, ih, firstSeen_snoc]

theorem jsSort_sorted (l : List PieItem) :
    (jsSort byCountDesc l).Sorted (fun a b => b.value ≤ a.value) := by
  have hs := List.sorted_insertionSort (sortsBefore byCountDesc) l
  refine List.Pairwise.imp ?_ hs
  intro a b hab
  simp only [sortsBefore, byCountDesc] at hab
  omega

/-- Stability of the sort: the entries of one value keep their relative order. -/
theorem jsSort_filter_value (l : List PieItem) (v : Int) :
    (jsSort byCountDesc l).filter (fun it => decide (it.value = v)) =
      l.filter (fun it => decide (it.value = v)) := by
  have hpair : (l.filter (fun it => decide (it.value = v))).Pairwise
      (sortsBefore byCountDesc) := by
    rw [List.pairwise_iff_forall_sublist]
    intro a b hab
    have ha := hab.subset (List.mem_cons_self a [b])
    have hb := hab.subset (List.mem_cons_of_mem a (List.mem_singleton_self b))
    simp only [List.mem_filter, decide_eq_true_eq] at ha hb
    simp only [sortsBefore, byCountDesc]
    omega
  have hsub : List.Sublist (l.filter (fun it => decide (it.value = v)))
      (jsSort byCountDesc l) :=
    List.sublist_insertionSort hpair (List.filter_sublist l)
  have hsub' := hsub.filter (fun it => decide (it.value = v))
  rw [List.filter_filter] at hsub'
  simp only [Bool.and_self] at hsub'
  have hlen := ((jsSort_perm byCountDesc l).filter (fun it => decide (it.value = v))).length_eq
  exact (hsub'.eq_of_length hlen.symm).symm

/-! ## Lemmas on the request URL -/

theorem digitChar_mod_ten_not_delimiter (m : Nat) : ¬ isUrlDelimiter (Nat.digitChar (m % 10)) := by
  have hlt : m % 10 < 10 := Nat.mod_lt m (by decide)
  generalize m % 10 = k at hlt
  interval_cases k <;> decide

theorem toDigitsCore_not_delimiter :
    ∀ (fuel n : Nat) (ds : List Char), (∀ c ∈ ds, ¬ isUrlDelimiter c) →
      ∀ c ∈ Nat.toDigitsCore 10 fuel n ds, ¬ isUrlDelimiter c := by
  intro fuel
  induction fuel with
  | zero => intro n ds hds c hc; exact hds c (by simpa [Nat.toDigitsCore] using hc)
  | succ fuel ih =>
    intro n ds hds c hc
    have hcons : ∀ c ∈ Nat.digitChar (n % 10) :: ds, ¬ isUrlDelimiter c := by
      intro c hc
      rcases List.mem_cons.1 hc with rfl | hc
      · exact digitChar_mod_ten_not_delimiter _
      · exact hds c hc
    simp only [Nat.toDigitsCore] at hc
    split at hc
    · exact hcons c hc
    · exact ih _ _ hcons c hc

theorem toString_nat_not_delimiter (n : Nat) :
    ∀ c ∈ (toString n).data, ¬ isUrlDelimiter c := by
  intro c hc
  have : (toString n).data = Nat.toDigits 10 n := rfl
  rw [this] at hc
  exact toDigitsCore_not_delimiter _ _ [] (by simp) c hc

theorem fractionChars_not_delimiter (r : Nat) :
    ∀ c ∈ fractionChars r, ¬ isUrlDelimiter c := by
  have hdot : ¬ isUrlDelimiter '.' := by decide
  intro c hc
  unfold fractionChars at hc
  split_ifs at hc <;>
    simp only [List.mem_cons, List.mem_singleton, List.not_mem_nil, or_false] at hc
  all_goals
    rcases hc with rfl | hc
    · exact hdot
    · first
      | (subst hc; exact digitChar_mod_ten_not_delimiter _)
      | (rcases hc with rfl | rfl <;> exact digitChar_mod_ten_not_delimiter _)
      | (rcases hc with rfl | rfl | rfl <;> exact digitChar_mod_ten_not_delimiter _)

theorem secondsToString_not_delimiter (o : Option Int) :
    ∀ c ∈ (secondsToString o).data, ¬ isUrlDelimiter c := by
  intro c hc
  cases o with
  | none =>
    simp only [secondsToString] at hc
    revert c
    decide
  | some ms =>
    simp only [secondsToString, String.data_append, List.mem_append] at hc
    rcases hc with (hc | hc) | hc
    · split at hc
      · simp at hc; subst hc; decide
      · simp at hc
    · exact toString_nat_not_delimiter _ c hc
    · exact fractionChars_not_delimiter _ c hc

theorem splitAt_of_not_mem (sep : Char) (a : List Char) (ha : sep ∉ a) :
    splitAt sep a = [a] := by
  induction a with
  | nil => rfl
  | cons c cs ih =>
    have hc : c ≠ sep := fun e => ha (by simp [e])
    have hcs : sep ∉ cs := fun m => ha (List.mem_cons_of_mem _ m)
    simp [splitAt, hc, ih hcs]

theorem splitAt_append_sep (sep : Char) (a b : List Char) (ha : sep ∉ a) :
    splitAt sep (a ++ sep :: b) = a :: splitAt sep b := by
  induction a with
  | nil => simp [splitAt]
  | cons c cs ih =>
    have hc : c ≠ sep := fun e => ha (by simp [e])
    have hcs : sep ∉ cs := fun m => ha (List.mem_cons_of_mem _ m)
    simp [splitAt, hc, ih hcs]

/-! ## Lemmas on the preset handler -/

theorem handlePresetDateRange_today (h : Helpers) (r : Render) (now : Int) (w : World) :
    (handlePresetDateRange h r now "today" w).state.inputs.start_timestamp =
      h.timestamp2string ((h.startOfDay now : ℚ) / 1000) ∧
    (handlePresetDateRange h r now "today" w).state.inputs.end_timestamp =
      h.timestamp2string ((h.endOfDay now : ℚ) / 1000) ∧
    (handlePresetDateRange h r now "today" w).requests =
      w.requests ++ [loadQuotaDataUrl h r] := by
  simp [handlePresetDateRange, presetStartDate, loadQuotaDataStart]

theorem demo_start_of_day :
    demoHelpers.timestamp2string ((demoHelpers.startOfDay 1700000000000 : ℚ) / 1000) =
      "1699920000" := by
  have e : ⌊((1700000000000 - 1700000000000 % 86400000 : Int) : ℚ) / 1000⌋ = 1699920000 := by
    norm_num
  simp only [demoHelpers, e]
  decide

theorem demo_end_of_day :
    demoHelpers.timestamp2string ((demoHelpers.endOfDay 1700000000000 : ℚ) / 1000) =
      "1700006399" := by
  have e : ⌊((1700000000000 - 1700000000000 % 86400000 + 86399999 : Int) : ℚ) / 1000⌋ =
      1700006399 := by
    norm_num
  simp only [demoHelpers, e]
  decide

/-! ## Lemmas on the quantity conversion -/

theorem digit_char_value (d : Nat) (hd : d < 10) :
    (Char.ofNat (48 + d)).toNat - 48 = d ∧ Char.ofNat (48 + d) ≠ '-' := by
  interval_cases d <;> decide

theorem digit_chars_value (n : Nat) :
    ((Nat.digits 10 n).map (fun d => Char.ofNat (48 + d))).map (fun c => c.toNat - 48) =
      Nat.digits 10 n := by
  rw [List.map_map]
  conv_rhs => rw [← List.map_id (Nat.digits 10 n)]
  refine List.map_congr_left ?_
  intro d hd
  exact (digit_char_value d (Nat.digits_lt_base (by decide) hd)).1

theorem minus_not_mem_digit_chars (n : Nat) :
    '-' ∉ (Nat.digits 10 n).reverse.map (fun d => Char.ofNat (48 + d)) := by
  intro hm
  obtain ⟨d, hd, he⟩ := List.mem_map.1 hm
  exact (digit_char_value d (Nat.digits_lt_base (by decide) (List.mem_reverse.1 hd))).2 he

theorem numeralValue_intNumeral (q : Int) : numeralValue (intNumeral q) = (q : ℚ) := by
  have hval : ∀ n : Nat,
      Nat.ofDigits 10 ((((Nat.digits 10 n).reverse.map
        (fun d => Char.ofNat (48 + d))).reverse).map (fun c => c.toNat - 48)) = n := by
    intro n
    rw [← List.map_reverse, List.reverse_reverse, digit_chars_value, Nat.ofDigits_digits]
  rcases lt_trichotomy q 0 with hq | hq | hq
  · have hq0 : q ≠ 0 := ne_of_lt hq
    have hcast : ((q.natAbs : Nat) : ℚ) = -(q : ℚ) := by
      rw [Nat.cast_natAbs, abs_of_neg hq, Int.cast_neg]
    simp only [numeralValue, intNumeral, hq, hq0, if_true, if_false, List.singleton_append,
      List.mem_cons, true_or, List.reverse_cons, List.map_append, List.map_cons, List.map_nil,
      Nat.ofDigits_append, hval]
    simp [hcast]
  · subst hq
    simp [numeralValue, intNumeral]
  · have hq0 : q ≠ 0 := ne_of_gt hq
    have hnl : ¬ q < 0 := not_lt.2 hq.le
    have hcast : ((q.natAbs : Nat) : ℚ) = (q : ℚ) := by
      rw [Nat.cast_natAbs, abs_of_pos hq]
    simp only [numeralValue, intNumeral, hnl, hq0, if_false, List.nil_append,
      minus_not_mem_digit_chars, hval]
    exact hcast

theorem demoHelpers_usageOf (q : Int) : demoHelpers.usageOf q = unitConversion 1 q := by
  show numeralValue (intNumeral q) = (q : ℚ) / 1
  rw [numeralValue_intNumeral, div_one]

theorem unitConversion_add (u : ℚ) (a b : Int) :
    unitConversion u (a + b) = unitConversion u a + unitConversion u b := by
  simp only [unitConversion, Int.cast_add, add_div]

theorem usageOf_add_of_unitConversion (h : Helpers) (u : ℚ)
    (hconv : ∀ q : Int, h.usageOf q = unitConversion u q) (a b : Int) :
    h.usageOf (a + b) = h.usageOf a + h.usageOf b := by
  rw [hconv, hconv, hconv, unitConversion_add]

theorem sum_usageOf_of_additive (h : Helpers)
    (hadd : ∀ a b : Int, h.usageOf (a + b) = h.usageOf a + h.usageOf b)
    (data : List UsageRecord) :
    (data.map (fun item => h.usageOf item.quota)).sum =
      h.usageOf ((data.map UsageRecord.quota).sum) := by
  have hzero : h.usageOf 0 = 0 := by
    have := hadd 0 0
    rw [add_zero] at this
    exact self_eq_add_left.1 this
  induction data with
  | nil => simp [hzero]
  | cons item rest ih => simp [ih, hadd]

/-! ## Totals of the two series -/

/-- C1: the values of the pie series pushed by `updateChart` add up to the sum
of `count` over the input records (for every list, the non-empty ones
included). -/
theorem pie_values_sum_eq_count_sum (h : Helpers) (g : String) (data : List UsageRecord) :
    ((pieSeries h g data).map PieItem.value).sum = (data.map UsageRecord.count).sum := by
  unfold pieSeries
  rw [((jsSort_perm byCountDesc _).map PieItem.value).sum_eq]
  exact sum_value_aggregate h g data

/-- The `Usage` fields of the bar series add up to the sum, over the input
records, of the conversion applied to each record's own quota, whatever the
conversion. -/
theorem bar_usage_sum_eq_sum_of_converted (h : Helpers) (g : String)
    (data : List UsageRecord) :
    ((lineSeries h g data).map LineItem.Usage).sum =
      (data.map (fun item => h.usageOf item.quota)).sum :=
  sum_usage_aggregate h g data

/-- C2: when the conversion respects sums, as the change of unit that the spec
describes does, the `Usage` fields of the bar series add up to the conversion
of the summed quota, for every list of records (the non-empty ones
included). -/
theorem bar_usage_sum_eq_converted_sum (h : Helpers) (g : String) (data : List UsageRecord)
    (hadd : ∀ a b : Int, h.usageOf (a + b) = h.usageOf a + h.usageOf b) :
    ((lineSeries h g data).map LineItem.Usage).sum =
      h.usageOf ((data.map UsageRecord.quota).sum) := by
  show ((aggregate h g data).lineData.map LineItem.Usage).sum = _
  rw [sum_usage_aggregate, sum_usageOf_of_additive h hadd]

/-- C2 on the scenario of two `gpt-4` records of quota 1500 and 500 in one
bucket, the conversion being the change of unit with one quota per unit. -/
theorem bar_usage_sum_eq_converted_sum_witness :
    (∀ a b : Int,
      demoHelpers.usageOf (a + b) = demoHelpers.usageOf a + demoHelpers.usageOf b) ∧
    ((lineSeries demoHelpers "hour"
        [{ model_name := "gpt-4", count := 3, quota := 1500, created_at := 90000 },
         { model_name := "gpt-4", count := 2, quota := 500, created_at := 90000 }]).map
        LineItem.Usage).sum =
      demoHelpers.usageOf
        (([{ model_name := "gpt-4", count := 3, quota := 1500, created_at := 90000 },
           { model_name := "gpt-4", count := 2, quota := 500, created_at := 90000 }] :
            List UsageRecord).map UsageRecord.quota).sum :=
  ⟨usageOf_add_of_unitConversion demoHelpers 1 demoHelpers_usageOf,
    bar_usage_sum_eq_converted_sum demoHelpers "hour" _
      (usageOf_add_of_unitConversion demoHelpers 1 demoHelpers_usageOf)⟩

/-! ## Group keys -/

/-- C3: no two bar entries share a `(Time, Model)` pair and no two pie entries
share a `type`, while every record's key is present; so records of one model
and one bucket label collapse.  In the scenario of two `gpt-4` records with
counts 3 and 2 that both fall in bucket 90000 under `hour`, the series are one
bar entry and one pie entry of value 5. -/
theorem series_keys_nodup (h : Helpers) (g : String) (data : List UsageRecord) (now : Int) :
    ((lineSeries h g data).map LineItem.key).Nodup ∧
    ((pieSeries h g data).map PieItem.type).Nodup ∧
    data.map (lineKey h g) ⊆ (lineSeries h g data).map LineItem.key ∧
    data.map UsageRecord.model_name ⊆ (pieSeries h g data).map PieItem.type ∧
    pieSeries h "hour" (preparedData now "hour"
        [{ model_name := "gpt-4", count := 3, quota := 1500, created_at := 90000 },
         { model_name := "gpt-4", count := 2, quota := 500, created_at := 91000 }]) =
      [{ type := "gpt-4", value := 5 }] ∧
    lineSeries h "hour" (preparedData now "hour"
        [{ model_name := "gpt-4", count := 3, quota := 1500, created_at := 90000 },
         { model_name := "gpt-4", count := 2, quota := 500, created_at := 91000 }]) =
      [{ Time := h.timestamp2string1 90000 "hour", Model := "gpt-4",
         Usage := h.usageOf 1500 + h.usageOf 500 }] := by
  have hprep : preparedData now "hour"
      [{ model_name := "gpt-4", count := 3, quota := 1500, created_at := 90000 },
       { model_name := "gpt-4", count := 2, quota := 500, created_at := 91000 }] =
      [{ model_name := "gpt-4", count := 3, quota := 1500, created_at := 90000 },
       { model_name := "gpt-4", count := 2, quota := 500, created_at := 90000 }] := by
    simp [preparedData, floorCreatedAt, timeGranularity]
    norm_num
  refine ⟨?_, ?_, ?_, ?_, ?_, ?_⟩
  · show ((aggregate h g data).lineData.map LineItem.key).Nodup
    rw [line_keys_aggregate]
    exact nodup_firstSeen _
  · have hp := (jsSort_perm byCountDesc (aggregate h g data).pieData).map PieItem.type
    refine (hp.nodup_iff).2 ?_
    rw [pie_types_aggregate]
    exact nodup_firstSeen _
  · intro k hk
    show k ∈ (aggregate h g data).lineData.map LineItem.key
    rw [line_keys_aggregate]
    exact (mem_firstSeen _ _).2 hk
  · intro m hm
    have hp := (jsSort_perm byCountDesc (aggregate h g data).pieData).map PieItem.type
    refine (hp.mem_iff).2 ?_
    rw [pie_types_aggregate]
    exact (mem_firstSeen _ _).2 hm
  · rw [hprep]
    simp [pieSeries, aggregate, loopBody, pieStep_nil, pieStep_cons, jsSort]
  · rw [hprep]
    simp [lineSeries, aggregate, loopBody, lineStep_nil, lineStep_cons, LineItem.key, lineKey]

/-! ## Bucketing -/

/-- C4: `loadQuotaData` rewrites every `created_at` of a non-empty response to
`floor(t / w) * w`, with `w` 3600 under `hour`, 86400 under `day` and 604800
under `week`; 90000 becomes 86400 under `day` and stays 90000 under `hour`,
91000 becomes 90000 under `hour`. -/
theorem created_at_floored (now : Int) (g : String) (item : UsageRecord)
    (rest : List UsageRecord) (m : String) (c q : Int) :
    timeGranularity "hour" = 3600 ∧ timeGranularity "day" = 86400 ∧
    timeGranularity "week" = 604800 ∧
    preparedData now g (item :: rest) =
      (item :: rest).map (fun it =>
        { it with created_at :=
            ((⌊it.created_at / (timeGranularity g : ℚ)⌋ * timeGranularity g : Int) : ℚ) }) ∧
    preparedData now "day" [{ model_name := m, count := c, quota := q, created_at := 90000 }] =
      [{ model_name := m, count := c, quota := q, created_at := 86400 }] ∧
    preparedData now "hour" [{ model_name := m, count := c, quota := q, created_at := 90000 }] =
      [{ model_name := m, count := c, quota := q, created_at := 90000 }] ∧
    preparedData now "hour" [{ model_name := m, count := c, quota := q, created_at := 91000 }] =
      [{ model_name := m, count := c, quota := q, created_at := 90000 }] := by
  refine ⟨by decide, by decide, by decide, ?_, ?_, ?_, ?_⟩
  · simp [preparedData, floorCreatedAt]
  · simp [preparedData, floorCreatedAt, timeGranularity]
    norm_num
  · simp [preparedData, floorCreatedAt, timeGranularity]
    norm_num
  · simp [preparedData, floorCreatedAt, timeGranularity]
    norm_num

/-- C5: flooring an already floored `created_at` with the same width, one of
3600, 86400 and 604800, changes nothing. -/
theorem floorCreatedAt_idempotent (w : Int) (hw : w = 3600 ∨ w = 86400 ∨ w = 604800)
    (item : UsageRecord) :
    floorCreatedAt w (floorCreatedAt w item) = floorCreatedAt w item ∧
    ⌊(((⌊item.created_at / (w : ℚ)⌋ * w : Int) : ℚ)) / (w : ℚ)⌋ * w =
      ⌊item.created_at / (w : ℚ)⌋ * w := by
  have hw0 : (w : ℚ) ≠ 0 := by
    rcases hw with rfl | rfl | rfl <;> norm_num
  have key : ⌊(((⌊item.created_at / (w : ℚ)⌋ * w : Int) : ℚ)) / (w : ℚ)⌋ =
      ⌊item.created_at / (w : ℚ)⌋ := by
    rw [Int.cast_mul, mul_div_assoc, div_self hw0, mul_one, Int.floor_intCast]
  refine ⟨?_, by rw [key]⟩
  simp only [floorCreatedAt, key]

/-- C5 at width 3600 and a record created at 91000. -/
theorem floorCreatedAt_idempotent_witness :
    ((3600 : Int) = 3600 ∨ (3600 : Int) = 86400 ∨ (3600 : Int) = 604800) ∧
    (floorCreatedAt 3600 (floorCreatedAt 3600
        { model_name := "gpt-4", count := 2, quota := 500, created_at := 91000 }) =
      floorCreatedAt 3600
        { model_name := "gpt-4", count := 2, quota := 500, created_at := 91000 } ∧
    ⌊(((⌊(91000 : ℚ) / ((3600 : Int) : ℚ)⌋ * 3600 : Int) : ℚ)) / ((3600 : Int) : ℚ)⌋ * 3600 =
      ⌊(91000 : ℚ) / ((3600 : Int) : ℚ)⌋ * 3600) :=
  ⟨Or.inl rfl,
    floorCreatedAt_idempotent 3600 (Or.inl rfl)
      { model_name := "gpt-4", count := 2, quota := 500, created_at := 91000 }⟩

/-! ## The empty result set -/

/-- C6: on a successful response with no rows, `updateChart` receives exactly
one record, of count 0, quota 0 and model `无数据`; the pie series is the one
entry `无数据` of value 0, the bar series the one entry `无数据` whose `Usage`
is the conversion of quota 0; and with both chart handles at hand
`loadQuotaData` completes, leaving these series in the two charts. -/
theorem empty_response_single_placeholder (h : Helpers) (r : Render) (lc pc : Nat)
    (msg : String) (w : World) :
    preparedData r.now r.state.dataExportDefaultTime [] =
      [{ model_name := "无数据", count := 0, quota := 0,
         created_at := ((⌊(r.now : ℚ) / 1000 / (timeGranularity r.state.dataExportDefaultTime : ℚ)⌋ *
           timeGranularity r.state.dataExportDefaultTime : Int) : ℚ) }] ∧
    pieSeries h r.state.dataExportDefaultTime
        (preparedData r.now r.state.dataExportDefaultTime []) =
      [{ type := "无数据", value := 0 }] ∧
    lineSeries h r.state.dataExportDefaultTime
        (preparedData r.now r.state.dataExportDefaultTime []) =
      [{ Time := h.timestamp2string1
            ((⌊(r.now : ℚ) / 1000 / (timeGranularity r.state.dataExportDefaultTime : ℚ)⌋ *
              timeGranularity r.state.dataExportDefaultTime : Int) : ℚ)
            r.state.dataExportDefaultTime,
         Model := "无数据", Usage := h.usageOf 0 }] ∧
    loadQuotaDataResponse h r (some lc) (some pc)
        { success := true, message := msg, data := [] } w =
      .ok { w with
        state := { w.state with
          quotaData := preparedData r.now r.state.dataExportDefaultTime []
          consumeQuota := 0
          times := 0
          loading := false }
        charts :=
          updateSpecAndLayout
            (updateSpecAndLayout w.charts pc
              (.pie (some ("总计：" ++ h.renderNumber 0)) [{ type := "无数据", value := 0 }]))
            lc
            (.bar ("总计：" ++ h.renderQuota 0 2)
              [{ Time := h.timestamp2string1
                    ((⌊(r.now : ℚ) / 1000 /
                        (timeGranularity r.state.dataExportDefaultTime : ℚ)⌋ *
                      timeGranularity r.state.dataExportDefaultTime : Int) : ℚ)
                    r.state.dataExportDefaultTime,
                 Model := "无数据", Usage := h.usageOf 0 }]) } := by
  have hprep : preparedData r.now r.state.dataExportDefaultTime [] =
      [{ model_name := "无数据", count := 0, quota := 0,
         created_at := ((⌊(r.now : ℚ) / 1000 / (timeGranularity r.state.dataExportDefaultTime : ℚ)⌋ *
           timeGranularity r.state.dataExportDefaultTime : Int) : ℚ) }] := by
    simp [preparedData, floorCreatedAt, noDataRecord]
  have hagg : aggregate h r.state.dataExportDefaultTime
      (preparedData r.now r.state.dataExportDefaultTime []) =
      { pieData := [{ type := "无数据", value := 0 }],
        lineData :=
          [{ Time := h.timestamp2string1
              ((⌊(r.now : ℚ) / 1000 / (timeGranularity r.state.dataExportDefaultTime : ℚ)⌋ *
                timeGranularity r.state.dataExportDefaultTime : Int) : ℚ)
              r.state.dataExportDefaultTime,
             Model := "无数据", Usage := h.usageOf 0 }],
        consumeQuota := 0,
        times := 0 } := by
    rw [hprep]
    simp [aggregate, loopBody, pieStep_nil, lineStep_nil]
  refine ⟨hprep, ?_, ?_, ?_⟩
  · show jsSort byCountDesc (aggregate _ _ _).pieData = _
    rw [hagg]
    simp [jsSort]
  · show (aggregate _ _ _).lineData = _
    rw [hagg]
  · simp only [loadQuotaDataResponse, updateChart, if_true, hagg]
    simp [jsSort]

/-! ## Order of the series -/

/-- C8 (as written) fails for the pie series: with a first record of model `a`
and count 1 and a second record of model `b` and count 2, the pie series
pushed is `b`, `a`, not the first-occurrence order `a`, `b`. -/
theorem pie_series_not_first_occurrence :
    (pieSeries demoHelpers "hour"
        [{ model_name := "a", count := 1, quota := 0, created_at := 90000 },
         { model_name := "b", count := 2, quota := 0, created_at := 90000 }]).map PieItem.type ≠
      firstSeen (([{ model_name := "a", count := 1, quota := 0, created_at := 90000 },
         { model_name := "b", count := 2, quota := 0, created_at := 90000 }] :
          List UsageRecord).map UsageRecord.model_name) := by
  simp [pieSeries, aggregate, loopBody, pieStep_nil, pieStep_cons, jsSort, firstSeen,
    sortsBefore, byCountDesc]

/-- C8 (as the code has it): the bar entries stand in the order in which their
`(Time, Model)` pair first occurs in the input.  The pie entries are the
groups, one per model in first-occurrence order, rearranged by descending
`value`; entries of equal `value` keep their first-occurrence order. -/
theorem series_order (h : Helpers) (g : String) (data : List UsageRecord) :
    (lineSeries h g data).map LineItem.key = firstSeen (data.map (lineKey h g)) ∧
    ∃ groups : List PieItem,
      groups.map PieItem.type = firstSeen (data.map UsageRecord.model_name) ∧
      (pieSeries h g data).Perm groups ∧
      (pieSeries h g data).Sorted (fun a b => b.value ≤ a.value) ∧
      ∀ v : Int, (pieSeries h g data).filter (fun it => decide (it.value = v)) =
        groups.filter (fun it => decide (it.value = v)) :=
  ⟨line_keys_aggregate h g data, (aggregate h g data).pieData, pie_types_aggregate h g data,
    jsSort_perm _ _, jsSort_sorted _, fun v => jsSort_filter_value _ v⟩

/-! ## A failed query -/

/-- C9: when the backend answers `success = false`, `loadQuotaData` logs the
message through `showError` and ends with `loading` false; the charts (series
and subtitles), `times`, `consumeQuota` and `quotaData` are the ones from
before the query. -/
theorem failed_query_leaves_charts (h : Helpers) (r : Render) (lineChart pieChart : Option Nat)
    (api : String → Response) (w : World)
    (hfail : (api (loadQuotaDataUrl h r)).success = false) :
    loadQuotaData h r lineChart pieChart api w =
      .ok { w with
        state := { w.state with loading := false }
        requests := w.requests ++ [loadQuotaDataUrl h r]
        errors := w.errors ++ [(api (loadQuotaDataUrl h r)).message] } := by
  simp [loadQuotaData, loadQuotaDataResponse, loadQuotaDataStart, hfail]

/-- C9 on the example page, the backend refusing every query. -/
theorem failed_query_leaves_charts_witness :
    ((fun _ => { success := false, message := "denied", data := [] } : String → Response)
        (loadQuotaDataUrl demoHelpers demoRender)).success = false ∧
    loadQuotaData demoHelpers demoRender (some 0) (some 1)
        (fun _ => { success := false, message := "denied", data := [] }) demoWorld =
      .ok { demoWorld with
        state := { demoWorld.state with loading := false }
        requests := demoWorld.requests ++ [loadQuotaDataUrl demoHelpers demoRender]
        errors := demoWorld.errors ++
          [((fun _ => { success := false, message := "denied", data := [] } :
              String → Response) (loadQuotaDataUrl demoHelpers demoRender)).message] } :=
  ⟨rfl, failed_query_leaves_charts demoHelpers demoRender (some 0) (some 1)
    (fun _ => { success := false, message := "denied", data := [] }) demoWorld rfl⟩

/-! ## The request of a non-administrator -/

/-- C7: when `isAdmin` is false and the granularity is `hour`, `day` or `week`,
the URL of `loadQuotaData` has the path `/api/data/self/`, its query
parameters are exactly `start_timestamp`, `end_timestamp` and `default_time`
(none is `username`), and the URL does not depend on the username input. -/
theorem self_url_query (h : Helpers) (r : Render) (hadmin : r.isAdminUser = false)
    (hg : r.state.dataExportDefaultTime = "hour" ∨ r.state.dataExportDefaultTime = "day" ∨
      r.state.dataExportDefaultTime = "week") :
    urlPath (loadQuotaDataUrl h r) = "/api/data/self/" ∧
    queryParamNames (loadQuotaDataUrl h r) = ["start_timestamp", "end_timestamp", "default_time"] ∧
    "username" ∉ queryParamNames (loadQuotaDataUrl h r) ∧
    ∀ u : String,
      loadQuotaDataUrl h
        { r with state := { r.state with inputs := { r.state.inputs with username := u } } } =
      loadQuotaDataUrl h r := by
  have hS := secondsToString_not_delimiter (h.dateParse r.state.inputs.start_timestamp)
  have hE := secondsToString_not_delimiter (h.dateParse r.state.inputs.end_timestamp)
  have hG : ∀ c ∈ r.state.dataExportDefaultTime.data, ¬ isUrlDelimiter c := by
    rcases hg with e | e | e <;> rw [e] <;> decide
  have hurl : (loadQuotaDataUrl h r).data =
      "/api/data/self/".data ++ '?' :: ("start_timestamp".data ++ '=' ::
        (secondsToString (h.dateParse r.state.inputs.start_timestamp)).data) ++
        '&' :: ("end_timestamp".data ++ '=' ::
        (secondsToString (h.dateParse r.state.inputs.end_timestamp)).data) ++
        '&' :: ("default_time".data ++ '=' :: r.state.dataExportDefaultTime.data) := by
    simp [loadQuotaDataUrl, hadmin, String.data_append]
  have hpath : urlPath (loadQuotaDataUrl h r) = "/api/data/self/" := by
    rw [urlPath, hurl]
    simp [List.takeWhile]
  have hnames : queryParamNames (loadQuotaDataUrl h r) =
      ["start_timestamp", "end_timestamp", "default_time"] := by
    rw [queryParamNames, hurl]
    have hamp : ∀ l : List Char, (∀ c ∈ l, ¬ isUrlDelimiter c) → '&' ∉ l :=
      fun l hl hm => hl _ hm (Or.inl rfl)
    have h1 : '&' ∉ "start_timestamp".data ++ '=' ::
        (secondsToString (h.dateParse r.state.inputs.start_timestamp)).data := by
      simp [hamp _ hS]
    have h2 : '&' ∉ "end_timestamp".data ++ '=' ::
        (secondsToString (h.dateParse r.state.inputs.end_timestamp)).data := by
      simp [hamp _ hE]
    have h3 : '&' ∉ "default_time".data ++ '=' :: r.state.dataExportDefaultTime.data := by
      simp [hamp _ hG]
    have hdrop : (List.dropWhile (fun c => decide (c ≠ '?'))
        ("/api/data/self/".data ++ '?' :: ("start_timestamp".data ++ '=' ::
        (secondsToString (h.dateParse r.state.inputs.start_timestamp)).data) ++
        '&' :: ("end_timestamp".data ++ '=' ::
        (secondsToString (h.dateParse r.state.inputs.end_timestamp)).data) ++
        '&' :: ("default_time".data ++ '=' :: r.state.dataExportDefaultTime.data))).tail =
        ("start_timestamp".data ++ '=' ::
        (secondsToString (h.dateParse r.state.inputs.start_timestamp)).data) ++
        '&' :: (("end_timestamp".data ++ '=' ::
        (secondsToString (h.dateParse r.state.inputs.end_timestamp)).data) ++
        '&' :: ("default_time".data ++ '=' :: r.state.dataExportDefaultTime.data)) := by
      simp [List.dropWhile]
    rw [hdrop, splitAt_append_sep _ _ _ h1, splitAt_append_sep _ _ _ h2,
      splitAt_of_not_mem _ _ h3]
    simp [List.takeWhile]
  refine ⟨hpath, hnames, ?_, ?_⟩
  · rw [hnames]
    decide
  · intro u
    simp [loadQuotaDataUrl, hadmin]

/-- C7 on the example page. -/
theorem self_url_query_witness :
    demoRender.isAdminUser = false ∧
    (demoRender.state.dataExportDefaultTime = "hour" ∨
      demoRender.state.dataExportDefaultTime = "day" ∨
      demoRender.state.dataExportDefaultTime = "week") ∧
    (urlPath (loadQuotaDataUrl demoHelpers demoRender) = "/api/data/self/" ∧
    queryParamNames (loadQuotaDataUrl demoHelpers demoRender) =
      ["start_timestamp", "end_timestamp", "default_time"] ∧
    "username" ∉ queryParamNames (loadQuotaDataUrl demoHelpers demoRender) ∧
    ∀ u : String,
      loadQuotaDataUrl demoHelpers
        { demoRender with
          state := { demoRender.state with
            inputs := { demoRender.state.inputs with username := u } } } =
      loadQuotaDataUrl demoHelpers demoRender) :=
  ⟨rfl, Or.inl rfl, self_url_query demoHelpers demoRender rfl (Or.inl rfl)⟩

/-! ## The preset `today` -/

/-- C10 on the example page (range `1000` to `2000` in the filter, the click at
instant 1700000000000): the handler stores the new range, start of day
`1699920000` and end of day `1700006399`, in `inputs`, but the query it issues
is built from the render in which the click happened and carries the old
range, not the URL of the new range. -/
theorem preset_today_query_carries_previous_range :
    (handlePresetDateRange demoHelpers demoRender 1700000000000 "today"
        demoWorld).state.inputs.start_timestamp = "1699920000" ∧
    (handlePresetDateRange demoHelpers demoRender 1700000000000 "today"
        demoWorld).state.inputs.end_timestamp = "1700006399" ∧
    (handlePresetDateRange demoHelpers demoRender 1700000000000 "today" demoWorld).requests =
      ["/api/data/self/?start_timestamp=1000&end_timestamp=2000&default_time=hour"] ∧
    loadQuotaDataUrl demoHelpers
        { demoRender with
          state := (handlePresetDateRange demoHelpers demoRender 1700000000000 "today"
            demoWorld).state } =
      "/api/data/self/?start_timestamp=1699920000&end_timestamp=1700006399&default_time=hour" := by
  have hg := handlePresetDateRange_today demoHelpers demoRender 1700000000000 demoWorld
  have hs := hg.1.trans demo_start_of_day
  have he := hg.2.1.trans demo_end_of_day
  refine ⟨hs, he, ?_, ?_⟩
  · rw [hg.2.2]
    decide
  · simp only [loadQuotaDataUrl, hs, he]
    decide

/-! ## Lemmas on the chart objects -/

theorem map_dom_modify (f : VChart → VChart) (hf : ∀ c, (f c).dom = c.dom) :
    ∀ (l : List VChart) (n : Nat), (l.modify f n).map VChart.dom = l.map VChart.dom := by
  intro l
  induction l with
  | nil => intro n; cases n <;> rfl
  | cons c cs ih =>
    intro n
    cases n with
    | zero => simp [List.modify, List.modifyTailIdx, List.modifyHead, hf]
    | succ n =>
      have := ih n
      simpa [List.modify, List.modifyTailIdx] using this

theorem map_dom_updateSpecAndLayout (charts : List VChart) (handle : Nat) (spec : ChartSpec) :
    (updateSpecAndLayout charts handle spec).map VChart.dom = charts.map VChart.dom := by
  unfold updateSpecAndLayout
  exact map_dom_modify (fun c => { c with spec := spec, layouts := c.layouts + 1 })
    (fun _ => rfl) charts handle

theorem keepsHandles_refl (w : World) : keepsHandles w w := ⟨rfl, rfl, rfl, rfl⟩

theorem keepsHandles_trans {w₁ w₂ w₃ : World} (h₁ : keepsHandles w₁ w₂)
    (h₂ : keepsHandles w₂ w₃) : keepsHandles w₁ w₃ :=
  ⟨h₂.1.trans h₁.1, h₂.2.1.trans h₁.2.1, h₂.2.2.1.trans h₁.2.2.1, h₂.2.2.2.trans h₁.2.2.2⟩

theorem keepsHandles_loadQuotaDataStart (h : Helpers) (r : Render) (w : World) :
    keepsHandles w (loadQuotaDataStart h r w) := ⟨rfl, rfl, rfl, rfl⟩

theorem keepsHandles_handlePresetDateRange (h : Helpers) (r : Render) (now : Int)
    (preset : String) (w : World) :
    keepsHandles w (handlePresetDateRange h r now preset w) := by
  unfold handlePresetDateRange
  cases presetStartDate h now preset <;> exact ⟨rfl, rfl, rfl, rfl⟩

theorem keepsHandles_handleInputChange (value name : String) (w : World) :
    keepsHandles w (handleInputChange value name w) := by
  unfold handleInputChange
  split <;> exact ⟨rfl, rfl, rfl, rfl⟩

theorem keepsHandles_loadQuotaDataResume (h : Helpers) (r : Render)
    (lineChart pieChart : Option Nat) (res : Response) (w : World) :
    keepsHandles w (loadQuotaDataResume h r lineChart pieChart res w) := by
  unfold keepsHandles loadQuotaDataResume loadQuotaDataResponse
  by_cases hs : res.success = true
  · cases pieChart with
    | none =>
      cases lineChart <;> simp [hs, updateChart, loadQuotaDataThrown]
    | some pc =>
      cases lineChart with
      | none => simp [hs, updateChart, loadQuotaDataThrown, map_dom_modify]
      | some lc => simp [hs, updateChart, map_dom_updateSpecAndLayout]
  · simp [hs]

theorem mountEffect_initialWorld (h : Helpers) (now : Int) (isAdminUser : Bool)
    (stored : Option String) :
    (mountEffect h (mountRender h now isAdminUser stored)
        (initialWorld h now stored)).charts.map VChart.dom = ["model_data", "model_pie"] ∧
    (mountEffect h (mountRender h now isAdminUser stored)
        (initialWorld h now stored)).state.initialized = true ∧
    (mountEffect h (mountRender h now isAdminUser stored)
        (initialWorld h now stored)).state.modelDataChart = some 0 ∧
    (mountEffect h (mountRender h now isAdminUser stored)
        (initialWorld h now stored)).state.modelDataPieChart = some 1 := by
  simp [mountEffect, initChart, mountRender, initialWorld, initialState, loadQuotaDataStart]

theorem mountEffect_initialized (h : Helpers) (r : Render) (w : World)
    (hi : w.state.initialized = true) : mountEffect h r w = w := by
  simp [mountEffect, hi]

theorem keepsHandles_step (h : Helpers) (mount : Render) (w : World) (e : Event)
    (hi : w.state.initialized = true) : keepsHandles w (step h mount w e) := by
  cases e with
  | effect =>
    show keepsHandles w (mountEffect h mount w)
    rw [mountEffect_initialized h mount w hi]
    exact keepsHandles_refl w
  | rerender => exact keepsHandles_refl w
  | inputChange value name => exact keepsHandles_handleInputChange value name w
  | refresh r => exact keepsHandles_loadQuotaDataStart h r w
  | preset r now preset => exact keepsHandles_handlePresetDateRange h r now preset w
  | response r lineChart pieChart res =>
    exact keepsHandles_loadQuotaDataResume h r lineChart pieChart res w

theorem keepsHandles_run (h : Helpers) (mount : Render) (events : List Event) :
    ∀ w : World, w.state.initialized = true → keepsHandles w (run h mount w events) := by
  induction events with
  | nil => intro w _; exact keepsHandles_refl w
  | cons e es ih =>
    intro w hi
    have hs := keepsHandles_step h mount w e hi
    exact keepsHandles_trans hs (ih (step h mount w e) (hs.2.1.trans hi))

/-! ## Creation of the chart handles -/

/-- C11: before the mount effect no chart object exists; after it, whatever
events follow (further runs of the effect, re-renders, input changes, query
submissions, preset clicks, responses), the heap holds exactly the two objects
built by `initChart`, the bar chart at `model_data` and the pie chart at
`model_pie`, the state holds their handles and `initialized` is true.  The
effect does nothing once the flag is true, sets it before `initChart` runs,
no event clears it, and no other event builds a chart object. -/
theorem chart_handles_created_once (h : Helpers) (now : Int) (isAdminUser : Bool)
    (stored : Option String) (events : List Event) (w : World) (r mount : Render)
    (value name preset : String) (clickNow : Int) (lineChart pieChart : Option Nat)
    (res : Response) (e : Event) :
    (initialWorld h now stored).charts = [] ∧
    (run h (mountRender h now isAdminUser stored) (initialWorld h now stored)
        (Event.effect :: events)).charts.map VChart.dom = ["model_data", "model_pie"] ∧
    (run h (mountRender h now isAdminUser stored) (initialWorld h now stored)
        (Event.effect :: events)).state.initialized = true ∧
    (run h (mountRender h now isAdminUser stored) (initialWorld h now stored)
        (Event.effect :: events)).state.modelDataChart = some 0 ∧
    (run h (mountRender h now isAdminUser stored) (initialWorld h now stored)
        (Event.effect :: events)).state.modelDataPieChart = some 1 ∧
    mountEffect h r { w with state := { w.state with initialized := true } } =
      { w with state := { w.state with initialized := true } } ∧
    mountEffect h r { w with state := { w.state with initialized := false } } =
      (initChart h r { w with state := { w.state with initialized := true } }).1 ∧
    keepsHandles w (step h mount w Event.rerender) ∧
    keepsHandles w (step h mount w (Event.inputChange value name)) ∧
    keepsHandles w (step h mount w (Event.refresh r)) ∧
    keepsHandles w (step h mount w (Event.preset r clickNow preset)) ∧
    keepsHandles w (step h mount w (Event.response r lineChart pieChart res)) ∧
    (step h mount { w with state := { w.state with initialized := true } } e).state.initialized =
      true := by
  have h0 := mountEffect_initialWorld h now isAdminUser stored
  have hr := keepsHandles_run h (mountRender h now isAdminUser stored) events
    (mountEffect h (mountRender h now isAdminUser stored) (initialWorld h now stored)) h0.2.1
  have hrun : run h (mountRender h now isAdminUser stored) (initialWorld h now stored)
      (Event.effect :: events) =
      run h (mountRender h now isAdminUser stored)
        (mountEffect h (mountRender h now isAdminUser stored) (initialWorld h now stored))
        events := rfl
  rw [hrun]
  refine ⟨rfl, hr.1.trans h0.1, hr.2.1.trans h0.2.1, hr.2.2.1.trans h0.2.2.1,
    hr.2.2.2.trans h0.2.2.2, ?_, ?_, keepsHandles_refl w,
    keepsHandles_handleInputChange value name w, keepsHandles_loadQuotaDataStart h r w,
    keepsHandles_handlePresetDateRange h r clickNow preset w,
    keepsHandles_loadQuotaDataResume h r lineChart pieChart res w, ?_⟩
  · exact mountEffect_initialized h r _ rfl
  · simp [mountEffect]
  · exact (keepsHandles_step h mount _ e rfl).2.1

end Detail
